import Mathlib

/-!
Shallow embedding of the playback core of `bevy_trickfilm`
(`src/animation/mod.rs`): the `PlayingAnimation2D` playback state, the
`AnimationPlayer2D` facade, and their operations.

Modelling conventions:
* Rust `f32` values are modelled as rationals (`ℚ`), in two readings: an
  exact-arithmetic idealization (`update`), which is bit-for-bit equal to the
  `f32` computation at every concrete scenario evaluated below, and a
  rounding-faithful IEEE-754 binary32 model (`roundF32`, `fAdd`, `fMul`,
  `updateF32`) used where rounding is decisive.
* Rust's `%` on floats is truncated remainder (`fmod`), modelled by `rustMod`
  below via truncation toward zero.
* `Handle<AnimationClip2D>` is an opaque identifier comparable for equality;
  it is modelled as `ℕ`, with `0` as the `Default::default()` handle.
* `u32` counters are modelled as `ℕ`; no claim exercises values anywhere near
  `2^32`, so wrap-around is immaterial.
-/

/-- Truncation of a rational toward zero, as Rust's float-to-integer
truncation behaves. -/
def ratTrunc (q : ℚ) : ℤ := if q < 0 then -⌊-q⌋ else ⌊q⌋

/-- Rust's `%` on floats: `x % d = x - d * trunc(x / d)` (sign of the
dividend), exact on rationals. -/
def rustMod (x d : ℚ) : ℚ := x - d * (ratTrunc (x / d) : ℚ)

/-- `bevy::animation::RepeatAnimation`: repetition behaviour of an animation.
Rust's `#[default]` variant is `Never`. -/
inductive RepeatAnimation where
  | Never : RepeatAnimation
  | Count : ℕ → RepeatAnimation
  | Forever : RepeatAnimation
deriving DecidableEq, Repr

instance : Inhabited RepeatAnimation := ⟨RepeatAnimation.Never⟩

/-- Opaque clip handle (`Handle<AnimationClip2D>`), comparable for equality. -/
abbrev ClipHandle := ℕ

/-- `PlayingAnimation2D` (src/animation/mod.rs, lines 25–35). -/
structure PlayingAnimation2D where
  repeat_mode : RepeatAnimation
  reverse : Bool
  clip_finished : Bool
  speed : ℚ
  elapsed : ℚ
  seek_time : ℚ
  animation_clip : ClipHandle
  completions : ℕ
deriving DecidableEq, Repr

namespace PlayingAnimation2D

/-- `impl Default for PlayingAnimation2D` (lines 37–50). -/
def defaultState : PlayingAnimation2D :=
  { repeat_mode := RepeatAnimation.Never
    reverse := false
    clip_finished := false
    speed := 1
    elapsed := 0
    seek_time := 0
    animation_clip := 0
    completions := 0 }

instance : Inhabited PlayingAnimation2D := ⟨defaultState⟩

/-- `PlayingAnimation2D::is_finished` (lines 57–63). -/
def is_finished (a : PlayingAnimation2D) : Bool :=
  match a.repeat_mode with
  | RepeatAnimation.Forever => false
  | RepeatAnimation.Never => 1 ≤ a.completions
  | RepeatAnimation.Count n => n ≤ a.completions

/-- `PlayingAnimation2D::update` (lines 67–86): early return when finished,
advance `elapsed` and `seek_time`, wrap the cursor (`%=` or `+=`), then the
boundary test incrementing `completions` and snapping `seek_time`.

This is the exact-arithmetic idealization of those lines: every `f32` `+`
and `*` is taken without rounding. It agrees bit-for-bit with the program at
all concrete inputs evaluated below, but it erases rounding effects: in real
`f32`, `seek_time += clip_duration` can round up to exactly `clip_duration`
and fire the forward boundary test. `updateF32` below models the same lines
with IEEE rounding on every `+` and `*`. -/
def update (a : PlayingAnimation2D) (delta clip_duration : ℚ) : PlayingAnimation2D :=
  if a.is_finished then a
  else
    let direction_multiplier : ℚ := if a.reverse then -1 else 1
    let elapsed' := a.elapsed + delta
    let s1 := a.seek_time + delta * a.speed * direction_multiplier
    let s2 :=
      if clip_duration ≤ s1 then rustMod s1 clip_duration
      else if s1 < 0 then s1 + clip_duration
      else s1
    if (a.reverse = true ∧ s2 ≤ 0) ∨ (a.reverse = false ∧ clip_duration ≤ s2) then
      { a with
          elapsed := elapsed'
          seek_time := if a.reverse then clip_duration else 0
          completions := a.completions + 1 }
    else
      { a with elapsed := elapsed', seek_time := s2 }

/-- `PlayingAnimation2D::replay` (lines 89–93). -/
def replay (a : PlayingAnimation2D) : PlayingAnimation2D :=
  { a with completions := 0, elapsed := 0, seek_time := 0 }

end PlayingAnimation2D

/-- `AnimationPlayer2D` (lines 97–102). -/
structure AnimationPlayer2D where
  paused : Bool
  animation : PlayingAnimation2D
deriving DecidableEq, Repr

namespace AnimationPlayer2D

/-- `#[derive(Default)]` for `AnimationPlayer2D`. -/
def defaultPlayer : AnimationPlayer2D :=
  { paused := false, animation := PlayingAnimation2D.defaultState }

instance : Inhabited AnimationPlayer2D := ⟨defaultPlayer⟩

/-- `AnimationPlayer2D::start` (lines 106–112): replace the playback state
wholesale with a fresh default bound to `handle`; `paused` untouched. -/
def start (p : AnimationPlayer2D) (handle : ClipHandle) : AnimationPlayer2D :=
  { p with animation := { PlayingAnimation2D.defaultState with animation_clip := handle } }

/-- `AnimationPlayer2D::is_paused` (lines 199–201). -/
def is_paused (p : AnimationPlayer2D) : Bool := p.paused

/-- `AnimationPlayer2D::play` (lines 115–120). -/
def play (p : AnimationPlayer2D) (handle : ClipHandle) : AnimationPlayer2D :=
  if p.animation.animation_clip ≠ handle ∨ p.is_paused = true then p.start handle else p

/-- `AnimationPlayer2D::is_finished` (lines 133–135). -/
def is_finished (p : AnimationPlayer2D) : Bool := p.animation.is_finished

/-- `AnimationPlayer2D::is_clip_finished` (lines 138–140). -/
def is_clip_finished (p : AnimationPlayer2D) : Bool := p.animation.clip_finished

/-- `AnimationPlayer2D::completions` (lines 179–181). -/
def completions (p : AnimationPlayer2D) : ℕ := p.animation.completions

/-- `AnimationPlayer2D::seek_time` (lines 220–222). -/
def seek_time (p : AnimationPlayer2D) : ℚ := p.animation.seek_time

/-- `AnimationPlayer2D::replay` (lines 231–233). -/
def replay (p : AnimationPlayer2D) : AnimationPlayer2D :=
  { p with animation := p.animation.replay }

/-- The external per-tick entry point (the `animation_player_spritesheet`
system, declared in src/animation/mod.rs line 4 but whose file is not in the
sources). Modelled from the spec: "External per-tick entry point: given
`delta_time` and the resolved duration of the bound clip, if not paused,
forward to Playback State's `update`." -/
def tick (p : AnimationPlayer2D) (delta clip_duration : ℚ) : AnimationPlayer2D :=
  if p.paused then p
  else { p with animation := p.animation.update delta clip_duration }

end AnimationPlayer2D

/-! ## IEEE-754 binary32 rounding model

The definitions above idealize `f32` as exact rationals. The following model
keeps the same algorithm but applies IEEE round-to-nearest-even after every
`f32` addition and multiplication, as the hardware does. -/

/-- Round a rational to the nearest integer, ties to even (the integer-level
core of IEEE-754 round-to-nearest-even). -/
def roundTiesToEven (q : ℚ) : ℤ :=
  if q - ⌊q⌋ < 1/2 then ⌊q⌋
  else if 1/2 < q - ⌊q⌋ then ⌊q⌋ + 1
  else if ⌊q⌋ % 2 = 0 then ⌊q⌋ else ⌊q⌋ + 1

/-- Finite-range IEEE-754 binary32 rounding of an exact rational:
round-to-nearest-even at 24 significand bits, exponent clamped at `-126`
(subnormal quantum `2^-149`). Faithful to `f32` for results inside the
finite range; overflow and NaN do not arise at the inputs evaluated here. -/
def roundF32 (x : ℚ) : ℚ :=
  if x = 0 then 0
  else
    (roundTiesToEven (x / 2 ^ (max (Int.log 2 |x|) (-126) - 23)) : ℚ)
      * 2 ^ (max (Int.log 2 |x|) (-126) - 23)

/-- `f32` addition: exact sum, then IEEE rounding. -/
def fAdd (x y : ℚ) : ℚ := roundF32 (x + y)

/-- `f32` multiplication: exact product, then IEEE rounding. -/
def fMul (x y : ℚ) : ℚ := roundF32 (x * y)

/-- `PlayingAnimation2D::update` (lines 67–86) once more, now with IEEE
rounding on every `f32` `+` and `*`. IEEE `%` is exact (the true remainder of
two finite floats is representable), so the `%=` branch keeps `rustMod`, and
comparisons are exact. This is the rounding-faithful reading of the same
source lines that `update` idealizes. -/
def PlayingAnimation2D.updateF32 (a : PlayingAnimation2D) (delta clip_duration : ℚ) :
    PlayingAnimation2D :=
  if a.is_finished then a
  else
    let direction_multiplier : ℚ := if a.reverse then -1 else 1
    let elapsed' := fAdd a.elapsed delta
    let s1 := fAdd a.seek_time (fMul (fMul delta a.speed) direction_multiplier)
    let s2 :=
      if clip_duration ≤ s1 then rustMod s1 clip_duration
      else if s1 < 0 then fAdd s1 clip_duration
      else s1
    if (a.reverse = true ∧ s2 ≤ 0) ∨ (a.reverse = false ∧ clip_duration ≤ s2) then
      { a with
          elapsed := elapsed'
          seek_time := if a.reverse then clip_duration else 0
          completions := a.completions + 1 }
    else
      { a with elapsed := elapsed', seek_time := s2 }

/-! ## Helper lemmas about the cursor wrap -/

/-- For a positive modulus and a dividend at or past it, Rust's `%` lands
strictly below the modulus. -/
theorem rustMod_lt (x d : ℚ) (hd : 0 < d) (hx : d ≤ x) : rustMod x d < d := by
  have hx0 : 0 < x := lt_of_lt_of_le hd hx
  have hq : 0 < x / d := div_pos hx0 hd
  have htr : ratTrunc (x / d) = ⌊x / d⌋ := by
    unfold ratTrunc
    rw [if_neg (not_lt.mpr hq.le)]
  unfold rustMod
  rw [htr]
  have hfr : x / d - ⌊x / d⌋ < 1 := by
    have := Int.lt_floor_add_one (x / d)
    linarith
  have hdiv : (x - d * ⌊x / d⌋) / d < 1 := by
    calc (x - d * ⌊x / d⌋) / d = x / d - ⌊x / d⌋ := by field_simp
    _ < 1 := hfr
  have := (div_lt_one hd).mp hdiv
  linarith

/-- For a positive modulus and a dividend at or past it, Rust's `%` is
nonnegative. -/
theorem rustMod_nonneg (x d : ℚ) (hd : 0 < d) (hx : d ≤ x) : 0 ≤ rustMod x d := by
  have hx0 : 0 < x := lt_of_lt_of_le hd hx
  have hq : 0 < x / d := div_pos hx0 hd
  have htr : ratTrunc (x / d) = ⌊x / d⌋ := by
    unfold ratTrunc
    rw [if_neg (not_lt.mpr hq.le)]
  unfold rustMod
  rw [htr]
  have hfl : (⌊x / d⌋ : ℚ) ≤ x / d := Int.floor_le (x / d)
  have hmul : d * (⌊x / d⌋ : ℚ) ≤ d * (x / d) := mul_le_mul_of_nonneg_left hfl hd.le
  have hxd : d * (x / d) = x := by field_simp
  linarith

/-- The step-5 wrap of `update` always lands strictly below `clip_duration`
when the latter is positive: whichever branch is taken, the result is `< d`.
This is why the forward boundary test of step 6 can never fire. -/
theorem wrap_lt (s1 d : ℚ) (hd : 0 < d) :
    (if d ≤ s1 then rustMod s1 d else if s1 < 0 then s1 + d else s1) < d := by
  split
  · exact rustMod_lt s1 d hd ‹d ≤ s1›
  · split
    · linarith
    · linarith [not_le.mp ‹¬ d ≤ s1›]

/-! ## Claim theorems -/

/-- C1: evaluation of the code at the spec's boundary-wrap scenario
(`reverse = false`, `speed = 1`, `clip_duration = 1`, `seek_time = 0`,
`update(2.5, 1.0)`): the wrap leaves `seek_time = 0.5` as claimed, but
`completions` stays `0` — the claimed increment by exactly 1 does not
happen, because the modulo wrap runs before the forward boundary test. -/
theorem C1_forward_wrap_registers_no_completion :
    (PlayingAnimation2D.defaultState.update (5/2) 1).seek_time = 1/2 ∧
    (PlayingAnimation2D.defaultState.update (5/2) 1).completions = 0 := by
  constructor <;>
    norm_num [PlayingAnimation2D.update, PlayingAnimation2D.is_finished,
      PlayingAnimation2D.defaultState, rustMod, ratTrunc]

/-- C2: evaluation of the code at the spec's Count(2) scenario: starting from
the default state with `repeat = Count 2` and ticking `update` with
`delta = 0.6` against `clip_duration = 0.6`, `is_finished` is `false` after
one tick and still `false` after two ticks (the claim says `true`), because
no forward tick ever increments `completions`. -/
theorem C2_count2_never_finishes :
    (({ PlayingAnimation2D.defaultState with
        repeat_mode := RepeatAnimation.Count 2 }.update (3/5) (3/5)).is_finished
      = false) ∧
    ((({ PlayingAnimation2D.defaultState with
        repeat_mode := RepeatAnimation.Count 2 }.update (3/5) (3/5)).update
          (3/5) (3/5)).is_finished = false) := by
  constructor <;>
    norm_num [PlayingAnimation2D.update, PlayingAnimation2D.is_finished,
      PlayingAnimation2D.defaultState, rustMod, ratTrunc]

/-- C3: evaluation of the code at a state where the step-6 boundary test
fires: a reversed default player updated with `delta = 1` against
`clip_duration = 1` registers a completion (`completions = 1`, so the
boundary test fired), yet `is_clip_finished` still returns `false` — no code
path in the sources ever assigns `clip_finished`. -/
theorem C3_clip_finished_never_set :
    (({ AnimationPlayer2D.defaultPlayer with
        animation :=
          { PlayingAnimation2D.defaultState with reverse := true }.update 1 1
      } : AnimationPlayer2D).completions = 1) ∧
    (({ AnimationPlayer2D.defaultPlayer with
        animation :=
          { PlayingAnimation2D.defaultState with reverse := true }.update 1 1
      } : AnimationPlayer2D).is_clip_finished = false) := by
  constructor <;>
    norm_num [AnimationPlayer2D.completions,
      AnimationPlayer2D.is_clip_finished, AnimationPlayer2D.defaultPlayer,
      PlayingAnimation2D.update, PlayingAnimation2D.is_finished,
      PlayingAnimation2D.defaultState, rustMod, ratTrunc]

/-- C4: evaluation of the code at a range-escaping input: from the default
state (`seek_time = 0 ∈ [0, 1]`, `reverse = false`) with `speed = -3`,
`update(1, 1)` leaves `seek_time = -2`, outside `[0, clip_duration]` — the
single `+= clip_duration` of step 5 cannot recover an overshoot past
`-clip_duration` and the forward boundary test does not snap it. -/
theorem C4_seek_time_escapes_range :
    (({ PlayingAnimation2D.defaultState with speed := -3 }.update 1 1).seek_time
      = -2) ∧
    ¬ ((0:ℚ) ≤ ({ PlayingAnimation2D.defaultState with speed := -3 }.update 1 1).seek_time ∧
       ({ PlayingAnimation2D.defaultState with speed := -3 }.update 1 1).seek_time ≤ 1) := by
  constructor <;>
    norm_num [PlayingAnimation2D.update, PlayingAnimation2D.is_finished,
      PlayingAnimation2D.defaultState, rustMod, ratTrunc]

/-- C5 (amended): restricted to exact arithmetic — the idealization `update`
of lines 67–86, i.e. whenever no `f32` rounding occurs — with
`reverse = false` and a positive `clip_duration`, an update call never
changes `completions`: after the step-5 wrap the cursor is strictly below
`clip_duration`, so the forward boundary test of step 6 never fires, and
`is_finished` is unchanged by the call. The unamended universal claim is
false of the program: `C5_f32_rounding_fires_forward_test` shows IEEE
rounding of `seek_time += clip_duration` landing exactly on `clip_duration`
and firing the forward test. -/
theorem C5_forward_update_preserves_completions
    (a : PlayingAnimation2D) (delta clip_duration : ℚ)
    (hrev : a.reverse = false) (hd : 0 < clip_duration) :
    (a.update delta clip_duration).completions = a.completions ∧
    (a.update delta clip_duration).is_finished = a.is_finished := by
  by_cases hf : a.is_finished = true
  · constructor <;> simp [PlayingAnimation2D.update, hf]
  · have hf' : a.is_finished = false := by simpa using hf
    have hS : (if clip_duration ≤ a.seek_time + delta * a.speed
          then rustMod (a.seek_time + delta * a.speed) clip_duration
          else if a.seek_time + delta * a.speed < 0
            then a.seek_time + delta * a.speed + clip_duration
            else a.seek_time + delta * a.speed) < clip_duration :=
      wrap_lt _ _ hd
    have hS' : ¬ (clip_duration ≤
        (if clip_duration ≤ a.seek_time + delta * a.speed
          then rustMod (a.seek_time + delta * a.speed) clip_duration
          else if a.seek_time + delta * a.speed < 0
            then a.seek_time + delta * a.speed + clip_duration
            else a.seek_time + delta * a.speed)) := not_le.mpr hS
    have hupd : a.update delta clip_duration =
        { a with
            elapsed := a.elapsed + delta
            seek_time :=
              if clip_duration ≤ a.seek_time + delta * a.speed
                then rustMod (a.seek_time + delta * a.speed) clip_duration
                else if a.seek_time + delta * a.speed < 0
                  then a.seek_time + delta * a.speed + clip_duration
                  else a.seek_time + delta * a.speed } := by
      simp [PlayingAnimation2D.update, hf', hrev, hS']
    rw [hupd]
    exact ⟨rfl, rfl⟩

/-- Witness for C5 at a concrete input: the default state is not reversed,
`1 > 0`, and updating it by `2.5` against duration `1` keeps `completions`
and `is_finished` unchanged. -/
theorem C5_forward_update_preserves_completions_witness :
    PlayingAnimation2D.defaultState.reverse = false ∧ (0:ℚ) < 1 ∧
    ((PlayingAnimation2D.defaultState.update (5/2) 1).completions =
        PlayingAnimation2D.defaultState.completions ∧
      (PlayingAnimation2D.defaultState.update (5/2) 1).is_finished =
        PlayingAnimation2D.defaultState.is_finished) :=
  ⟨rfl, by norm_num,
    C5_forward_update_preserves_completions PlayingAnimation2D.defaultState (5/2) 1 rfl
      (by norm_num)⟩

/-- C6: `is_finished` is a pure function of `repeat` and `completions`:
`Forever` gives `false`; `Never` gives `true` iff `completions >= 1`;
`Count n` gives `true` iff `completions >= n`. -/
theorem C6_is_finished_pure_cases (a : PlayingAnimation2D) :
    (a.repeat_mode = RepeatAnimation.Forever → a.is_finished = false) ∧
    (a.repeat_mode = RepeatAnimation.Never →
      (a.is_finished = true ↔ 1 ≤ a.completions)) ∧
    (∀ n : ℕ, a.repeat_mode = RepeatAnimation.Count n →
      (a.is_finished = true ↔ n ≤ a.completions)) := by
  refine ⟨fun h => ?_, fun h => ?_, fun n h => ?_⟩ <;>
    simp [PlayingAnimation2D.is_finished, h]

/-- Witness for C6 at a concrete input: a state with `repeat = Count 3`
satisfies the `Count` case of the characterization. -/
theorem C6_is_finished_pure_cases_witness :
    ({ PlayingAnimation2D.defaultState with
        repeat_mode := RepeatAnimation.Count 3 } : PlayingAnimation2D).is_finished = true ↔
      3 ≤ ({ PlayingAnimation2D.defaultState with
        repeat_mode := RepeatAnimation.Count 3 } : PlayingAnimation2D).completions :=
  (C6_is_finished_pure_cases
    { PlayingAnimation2D.defaultState with
        repeat_mode := RepeatAnimation.Count 3 }).2.2 3 rfl

/-- C7: when `is_finished` holds in the pre-state, `update` returns the state
unchanged — every field, the bound clip handle included, is preserved for
every `delta` and `clip_duration`. -/
theorem C7_finished_update_is_noop (a : PlayingAnimation2D)
    (delta clip_duration : ℚ) (hf : a.is_finished = true) :
    a.update delta clip_duration = a := by
  simp [PlayingAnimation2D.update, hf]

/-- Witness for C7 at a concrete input: a `Never`-policy state with one
completion is finished, and updating it changes nothing. -/
theorem C7_finished_update_is_noop_witness :
    ({ PlayingAnimation2D.defaultState with completions := 1 } : PlayingAnimation2D).is_finished
        = true ∧
      PlayingAnimation2D.update
          { PlayingAnimation2D.defaultState with completions := 1 } 5 2 =
        { PlayingAnimation2D.defaultState with completions := 1 } :=
  ⟨rfl, C7_finished_update_is_noop
    { PlayingAnimation2D.defaultState with completions := 1 } 5 2 rfl⟩

/-- C8: the spec's reverse-boundary scenario. With `reverse = true`,
`speed = 1`, `clip_duration = 1` and `seek_time = 0.3`, `update(0.5, 1)`
wraps the cursor to `0.8` with no completion; the follow-up `update(0.8, 1)`
brings the cursor to exactly `0`, fires the reverse boundary test,
increments `completions` to `1` and snaps `seek_time` to `clip_duration`. -/
theorem C8_reverse_boundary_scenario :
    (({ PlayingAnimation2D.defaultState with
        reverse := true, seek_time := 3/10 }.update (1/2) 1).seek_time = 4/5) ∧
    (({ PlayingAnimation2D.defaultState with
        reverse := true, seek_time := 3/10 }.update (1/2) 1).completions = 0) ∧
    ((({ PlayingAnimation2D.defaultState with
        reverse := true, seek_time := 3/10 }.update (1/2) 1).update (4/5) 1).completions = 1) ∧
    ((({ PlayingAnimation2D.defaultState with
        reverse := true, seek_time := 3/10 }.update (1/2) 1).update (4/5) 1).seek_time = 1) := by
  refine ⟨?_, ?_, ?_, ?_⟩ <;>
    norm_num [PlayingAnimation2D.update, PlayingAnimation2D.is_finished,
      PlayingAnimation2D.defaultState, rustMod, ratTrunc]

/-- C9: `play` is idempotent while playing — when the bound clip already
equals the requested handle and the player is not paused, `play` changes
nothing; when the bound clip differs or the player is paused, `play` behaves
exactly as `start`, which installs a fresh default playback state bound to
the handle and leaves `paused` unchanged. In every state, two consecutive
`play` calls with the same handle end in the same state as one call. -/
theorem C9_play_idempotent_or_start (p : AnimationPlayer2D) (h : ClipHandle) :
    (p.animation.animation_clip = h → p.paused = false → p.play h = p) ∧
    (p.animation.animation_clip ≠ h ∨ p.paused = true → p.play h = p.start h) ∧
    (p.start h).paused = p.paused ∧
    (p.start h).animation =
      { PlayingAnimation2D.defaultState with animation_clip := h } ∧
    (p.play h).play h = p.play h := by
  refine ⟨fun hc hp => ?_, fun hcp => ?_, rfl, rfl, ?_⟩
  · unfold AnimationPlayer2D.play
    rw [if_neg (by simp [AnimationPlayer2D.is_paused, hc, hp])]
  · unfold AnimationPlayer2D.play
    rcases hcp with hne | hpa
    · rw [if_pos (Or.inl hne)]
    · rw [if_pos (Or.inr (show p.is_paused = true from hpa))]
  · by_cases hcond : p.animation.animation_clip ≠ h ∨ p.is_paused = true
    · have h1 : p.play h = p.start h := by
        unfold AnimationPlayer2D.play
        rw [if_pos hcond]
      rw [h1]
      by_cases hpa : p.paused = true
      · have h2 : (p.start h).play h = (p.start h).start h := by
          unfold AnimationPlayer2D.play
          rw [if_pos (Or.inr (show (p.start h).is_paused = true from hpa))]
        rw [h2]
        rfl
      · unfold AnimationPlayer2D.play
        rw [if_neg (by simp [AnimationPlayer2D.is_paused, AnimationPlayer2D.start, hpa])]
    · have h1 : p.play h = p := by
        unfold AnimationPlayer2D.play
        rw [if_neg hcond]
      rw [h1]
      exact h1

/-- Witness for C9 at concrete inputs: playing the already-bound handle `0`
on the default (unpaused) player is a no-op, and playing the different
handle `1` behaves as `start 1`. -/
theorem C9_play_idempotent_or_start_witness :
    AnimationPlayer2D.defaultPlayer.play 0 = AnimationPlayer2D.defaultPlayer ∧
    AnimationPlayer2D.defaultPlayer.play 1 = AnimationPlayer2D.defaultPlayer.start 1 :=
  ⟨(C9_play_idempotent_or_start AnimationPlayer2D.defaultPlayer 0).1 rfl rfl,
    (C9_play_idempotent_or_start AnimationPlayer2D.defaultPlayer 1).2.1
      (Or.inl (by decide))⟩

/-- C10: `replay` zeroes exactly `completions`, `elapsed` and `seek_time`;
the repeat policy, reverse flag, speed, `clip_finished`, the bound clip
handle and the paused flag are all unchanged, in every state. -/
theorem C10_replay_resets_only_counters (p : AnimationPlayer2D) :
    p.replay.animation.completions = 0 ∧
    p.replay.animation.elapsed = 0 ∧
    p.replay.animation.seek_time = 0 ∧
    p.replay.animation.repeat_mode = p.animation.repeat_mode ∧
    p.replay.animation.reverse = p.animation.reverse ∧
    p.replay.animation.speed = p.animation.speed ∧
    p.replay.animation.clip_finished = p.animation.clip_finished ∧
    p.replay.animation.animation_clip = p.animation.animation_clip ∧
    p.replay.paused = p.paused :=
  ⟨rfl, rfl, rfl, rfl, rfl, rfl, rfl, rfl, rfl⟩

/-- `Int.log` base 2 of a positive rational is pinned down by its binade. -/
theorem int_log2_eq (r : ℚ) (e : ℤ) (hr : 0 < r)
    (h1 : (2:ℚ) ^ e ≤ r) (h2 : r < (2:ℚ) ^ (e + 1)) : Int.log 2 r = e := by
  have hb : (1:ℕ) < 2 := one_lt_two
  have h1' : ((2:ℕ):ℚ) ^ e ≤ r := by exact_mod_cast h1
  have h2' : r < ((2:ℕ):ℚ) ^ (e + 1) := by exact_mod_cast h2
  have hle : e ≤ Int.log 2 r := (Int.zpow_le_iff_le_log hb hr).mp h1'
  have hlt : Int.log 2 r < e + 1 := (Int.lt_zpow_iff_log_lt hb hr).mp h2'
  omega

/-- Evaluation rule for `roundF32` once the binade of the input is known. -/
theorem roundF32_eval (x : ℚ) (e : ℤ) (hx : x ≠ 0) (he : -126 ≤ e)
    (h1 : (2:ℚ) ^ e ≤ |x|) (h2 : |x| < (2:ℚ) ^ (e + 1)) :
    roundF32 x = (roundTiesToEven (x / 2 ^ (e - 23)) : ℚ) * 2 ^ (e - 23) := by
  have habs : 0 < |x| := abs_pos.mpr hx
  have hlog : Int.log 2 |x| = e := int_log2_eq _ _ habs h1 h2
  unfold roundF32
  rw [if_neg hx, hlog, max_eq_left he]

/-- `-2^-30` is exactly representable in binary32, so rounding returns it. -/
theorem roundF32_eps : roundF32 (-(1/2^30) : ℚ) = -(1/2^30) := by
  have habs : |(-(1/2^30) : ℚ)| = 1/2^30 := by
    rw [abs_neg, abs_of_pos (by positivity)]
  rw [roundF32_eval (-(1/2^30) : ℚ) (-30) (by norm_num) (by norm_num)
      (by rw [habs, zpow_neg]; norm_num) (by rw [habs]; norm_num)]
  have hexp : ((-30:ℤ) - 23) = -53 := by norm_num
  rw [hexp]
  have harg : (-(1/2^30) : ℚ) / 2 ^ (-53:ℤ) = -(2^23) := by
    rw [zpow_neg, div_eq_mul_inv, inv_inv]
    norm_num
  rw [harg]
  have hrte : roundTiesToEven (-(2^23) : ℚ) = -(2^23) := by
    unfold roundTiesToEven
    norm_num
  rw [hrte, zpow_neg]
  push_cast
  norm_num

/-- The exact sum `1 - 2^-30` is not representable in binary32: it lies in
the binade `[1/2, 1)` whose quantum is `2^-24`, and rounding to nearest
carries it up to exactly `1`. -/
theorem roundF32_one_sub_eps : roundF32 ((1:ℚ) - 1/2^30) = 1 := by
  have habs : |(1:ℚ) - 1/2^30| = 1 - 1/2^30 := abs_of_pos (by norm_num)
  rw [roundF32_eval ((1:ℚ) - 1/2^30) (-1) (by norm_num) (by norm_num)
      (by rw [habs, zpow_neg]; norm_num) (by rw [habs]; norm_num)]
  have hexp : ((-1:ℤ) - 23) = -24 := by norm_num
  rw [hexp]
  have harg : ((1:ℚ) - 1/2^30) / 2 ^ (-24:ℤ) = 1073741823/64 := by
    rw [zpow_neg, div_eq_mul_inv, inv_inv]
    norm_num
  rw [harg]
  have hrte : roundTiesToEven (1073741823/64 : ℚ) = 2^24 := by
    unfold roundTiesToEven
    norm_num
  rw [hrte, zpow_neg]
  push_cast
  norm_num

/-- Branch evaluation for `updateF32`: not finished, forward direction, a
negative advanced cursor, and a wrapped value back at the terminal boundary
give one completion and a snap to `0`. -/
theorem updateF32_addBranch (a : PlayingAnimation2D) (delta d s1 s2 : ℚ)
    (hf : a.is_finished = false) (hrev : a.reverse = false)
    (hs1 : fAdd a.seek_time (fMul (fMul delta a.speed) 1) = s1)
    (h1 : ¬ d ≤ s1) (h2 : s1 < 0)
    (hs2 : fAdd s1 d = s2) (h3 : d ≤ s2) :
    a.updateF32 delta d =
      { a with
          elapsed := fAdd a.elapsed delta
          seek_time := 0
          completions := a.completions + 1 } := by
  simp [PlayingAnimation2D.updateF32, hf, hrev, hs1, h1, h2, hs2, h3]

/-- C5 counterexample: in the rounding-faithful model of lines 67–86, a
forward update CAN change `completions` and make `is_finished` true. From
the default state with `speed = -2^-30` (finite, `reverse = false`,
`repeat = Never`, `seek_time = 0`, `completions = 0`), `updateF32(1, 1)`
computes `seek_time = -2^-30`, and the wrap `seek_time += clip_duration`
rounds `1 - 2^-30` up to exactly `1.0`, so the forward boundary test fires:
`completions` becomes `1` and `is_finished` becomes `true`. -/
theorem C5_f32_rounding_fires_forward_test :
    (({ PlayingAnimation2D.defaultState with
        speed := -(1/2^30) } : PlayingAnimation2D).updateF32 1 1).completions = 1 ∧
    (({ PlayingAnimation2D.defaultState with
        speed := -(1/2^30) } : PlayingAnimation2D).updateF32 1 1).is_finished = true ∧
    ({ PlayingAnimation2D.defaultState with
        speed := -(1/2^30) } : PlayingAnimation2D).reverse = false ∧
    ({ PlayingAnimation2D.defaultState with
        speed := -(1/2^30) } : PlayingAnimation2D).completions = 0 ∧
    ({ PlayingAnimation2D.defaultState with
        speed := -(1/2^30) } : PlayingAnimation2D).is_finished = false := by
  have e1 : fMul 1 (-(1/2^30) : ℚ) = -(1/2^30) := by
    unfold fMul
    rw [one_mul]
    exact roundF32_eps
  have e2 : fMul (-(1/2^30) : ℚ) 1 = -(1/2^30) := by
    unfold fMul
    rw [mul_one]
    exact roundF32_eps
  have e3 : fAdd (0:ℚ) (-(1/2^30)) = -(1/2^30) := by
    unfold fAdd
    rw [zero_add]
    exact roundF32_eps
  have e4 : fAdd (-(1/2^30) : ℚ) 1 = 1 := by
    unfold fAdd
    have hsum : (-(1/2^30) : ℚ) + 1 = 1 - 1/2^30 := by ring
    rw [hsum]
    exact roundF32_one_sub_eps
  have key : ({ PlayingAnimation2D.defaultState with
      speed := -(1/2^30) } : PlayingAnimation2D).updateF32 1 1 =
      { ({ PlayingAnimation2D.defaultState with
          speed := -(1/2^30) } : PlayingAnimation2D) with
        elapsed := fAdd ({ PlayingAnimation2D.defaultState with
          speed := -(1/2^30) } : PlayingAnimation2D).elapsed 1
        seek_time := 0
        completions := ({ PlayingAnimation2D.defaultState with
          speed := -(1/2^30) } : PlayingAnimation2D).completions + 1 } := by
    refine updateF32_addBranch _ 1 1 (-(1/2^30)) 1 rfl rfl ?_ (by norm_num)
      (by norm_num) e4 le_rfl
    show fAdd 0 (fMul (fMul 1 (-(1/2^30))) 1) = -(1/2^30)
    rw [e1, e2, e3]
  refine ⟨?_, ?_, rfl, rfl, rfl⟩
  · rw [key]
    rfl
  · rw [key]
    rfl
